import Mathlib

/-!
Shallow embedding of the JJXCAPITAL backend (src/index.js, the
WebSocket/session variant of the script, together with its earlier
variants in src/unnamed/).  The embedding covers:

* the JavaScript numeric behaviour the handlers rely on (`parseFloat`,
  the `||` falsy-coalescing operator, division), with JS numbers
  modelled as exact rationals plus an explicit NaN / Infinity marker
  (all decimal literals appearing in the claims are exactly
  representable, so rationals are faithful for them);
* the credential vault `encrypt` / `decrypt` (AES-256-GCM over a
  12-byte IV, 16-byte auth tag, blob layout `iv ++ tag ++ ciphertext`);
  the base64 transport encoding and the UTF-8 string/byte conversion,
  which are bijections, are elided: blobs and secrets are byte lists;
* the execution-report normalisation and Firestore merge-write done in
  the `ws.on("message")` handler;
* the in-memory stream registry (`streams`), `startUserStream`,
  `stopUserStream`, the `/connect-binance` and `/disconnect-binance`
  handlers and `startAllUserStreamsOnBoot`, as a step function over an
  explicit server state.  Handlers run atomically in the model (one
  operation per step), matching the single-threaded event loop at the
  granularity of one request / one socket event; socket open/close
  events and renewal-timer ticks are separate steps.
-/

/-! ## JavaScript numbers -/

/-- A JavaScript number as used by the handlers: NaN, a signed
infinity, or a finite value (modelled as an exact rational). -/
inductive JSNum where
  | nan : JSNum
  | inf (pos : Bool) : JSNum
  | num (q : ℚ) : JSNum
deriving DecidableEq

/-- JS truthiness of a number: `0` and `NaN` are falsy. -/
def JSNum.truthy : JSNum → Bool
  | .nan => false
  | .inf _ => true
  | .num q => q != 0

/-- The JS `a || b` operator applied to numbers. -/
def jsOrNum (a b : JSNum) : JSNum := if a.truthy then a else b

/-- JS division of numbers (`x / y`). -/
def jsDiv : JSNum → JSNum → JSNum
  | .nan, _ => .nan
  | _, .nan => .nan
  | .inf _, .inf _ => .nan
  | .inf p, .num b => if b < 0 then .inf (!p) else .inf p
  | .num _, .inf _ => .num 0
  | .num a, .num b =>
      if b = 0 then (if a = 0 then .nan else .inf (decide (0 ≤ a)))
      else .num (a / b)

/-- The JS `a || b` operator where `a` is a possibly-absent string
field (absent, `null` and the empty string are falsy). -/
def strOr (a : Option String) (b : String) : String :=
  match a with
  | some s => if s = "" then b else s
  | none => b

def digitVal (c : Char) : Nat := c.toNat - 48

def digitsToNat (ds : List Char) : Nat :=
  ds.foldl (fun a c => a * 10 + digitVal c) 0

/-- JS `parseFloat`, restricted to the decimal forms the venue sends:
optional leading spaces, optional sign, integer digits, optional
fractional digits.  A longest numeric prefix is parsed and the rest is
ignored (`parseFloat("12abc") = 12`); no digit at all gives NaN.
Exponent notation and the literal `Infinity` are not modelled (no
claim touches them). -/
def parseFloat (str : String) : JSNum :=
  let cs := str.toList.dropWhile (fun c => c = ' ')
  let signed : Bool × List Char :=
    match cs with
    | '-' :: rest => (true, rest)
    | '+' :: rest => (false, rest)
    | _ => (false, cs)
  let intDs := signed.2.takeWhile Char.isDigit
  let rest := signed.2.dropWhile Char.isDigit
  let fracDs :=
    match rest with
    | '.' :: r => r.takeWhile Char.isDigit
    | _ => []
  if intDs = [] ∧ fracDs = [] then .nan
  else
    let m : ℚ := (digitsToNat intDs : ℚ) + (digitsToNat fracDs : ℚ) / (10 ^ fracDs.length)
    .num (if signed.1 then -m else m)

/-! ## Credential vault (src/index.js lines 236-272)

The AES-256-GCM primitive itself is Node library code, not part of the
repository.  Modelled from the spec: an authenticated cipher that
recovers the plaintext exactly under the correct key/IV and whose
authentication tag detects any modification of the ciphertext
(spec 4.1: "bind an authentication tag so tampering is detectable").
It is realised executably as a keystream cipher (byte-wise addition
mod 256 of a key/IV-derived stream) plus a 16-byte checksum tag; both
properties the claims rely on (round-trip, detection of any single-byte
change) are theorems about this realisation, proved below. -/

/-- Keystream byte `i` derived from key and IV. -/
def ksByte (key iv : List Nat) (i : Nat) : Nat :=
  (key.sum * 7 + iv.sum * 13 + i * 3 + 101) % 256

/-- Cipher core: byte-wise addition of the keystream, starting at
stream position `i`. -/
def encBytes (key iv : List Nat) : Nat → List Nat → List Nat
  | _, [] => []
  | i, b :: bs => (b + ksByte key iv i) % 256 :: encBytes key iv (i + 1) bs

/-- Inverse cipher core. -/
def decBytes (key iv : List Nat) : Nat → List Nat → List Nat
  | _, [] => []
  | i, c :: cs => (c + 256 - ksByte key iv i) % 256 :: decBytes key iv (i + 1) cs

/-- One byte of the 16-byte authentication tag over the ciphertext. -/
def tagByte (key iv ct : List Nat) (j : Nat) : Nat :=
  (key.sum + iv.sum * 3 + ct.sum + ct.length * 7 + j) % 256

/-- The 16-byte GCM authentication tag. -/
def gcmTag (key iv ct : List Nat) : List Nat :=
  (List.range 16).map (tagByte key iv ct)

/-- Key loading (source lines 236-244): the configured key is kept only
if it is exactly 32 bytes, otherwise encryption is disabled (`null`). -/
def mkEncryptionKey (raw : Option (List Nat)) : Option (List Nat) :=
  raw.bind (fun k => if k.length = 32 then some k else none)

/-- `encrypt` (source lines 246-254): identity when no key is
configured; otherwise the blob `iv ++ authTag ++ ciphertext` (the
base64 rendering of that buffer is elided).  The 12-byte random IV
drawn by `crypto.randomBytes(12)` is passed in as a parameter. -/
def encrypt (enckey : Option (List Nat)) (iv plainText : List Nat) : List Nat :=
  match enckey with
  | none => plainText
  | some key => iv ++ gcmTag key iv (encBytes key iv 0 plainText) ++ encBytes key iv 0 plainText

/-- The body of the `try` block of `decrypt` (source lines 258-266):
slice off `iv = full.slice(0,12)`, `tag = full.slice(12,28)`,
`encrypted = full.slice(28)`, verify the tag and decipher.  `none`
models the body throwing (malformed blob or failed authentication). -/
def decryptTry (key payload : List Nat) : Option (List Nat) :=
  if payload.length < 28 then none
  else
    let iv := payload.take 12
    let tag := (payload.drop 12).take 16
    let ct := payload.drop 28
    if gcmTag key iv ct = tag then some (decBytes key iv 0 ct) else none

/-- `decrypt` (source lines 256-272): identity when no key is
configured; otherwise runs the `try` body and — in the `catch` — falls
back to returning the original payload unchanged ("devolvemos el
original por compatibilidad"). -/
def decrypt (enckey : Option (List Nat)) (payload : List Nat) : List Nat :=
  match enckey with
  | none => payload
  | some key => (decryptTry key payload).getD payload

/-! ## Event normalisation (the `ws.on("message")` handler, lines 314-354) -/

/-- The fields of a venue frame that the handler reads.  Binance sends
the quantity fields as JSON strings; absent fields are `none`.  `T` is
the event-time in epoch milliseconds. -/
structure RawEvent where
  e : Option String
  i : Option String
  l : Option String
  q : Option String
  Z : Option String
  z : Option String
  S : Option String
  s : Option String
  T : Option Nat
deriving DecidableEq

/-- `executedQty = parseFloat(data.l || data.q || "0")` (line 322). -/
def executedQtyOf (ev : RawEvent) : JSNum :=
  parseFloat (strOr ev.l (strOr ev.q "0"))

/-- `cumQuote = parseFloat(data.Z || data.z || "0")` (line 323). -/
def cumQuoteOf (ev : RawEvent) : JSNum :=
  parseFloat (strOr ev.Z (strOr ev.z "0"))

/-- `exchange_rate: cumQuote / (executedQty || 1)` (line 334). -/
def rateOf (ev : RawEvent) : JSNum :=
  jsDiv (cumQuoteOf ev) (jsOrNum (executedQtyOf ev) (.num 1))

/-- `orderId = data.i?.toString?.() || Date.now()` (line 321); `now` is
the wall clock passed explicitly. -/
def orderIdOf (ev : RawEvent) (now : Nat) : String :=
  strOr ev.i (toString now)

/-- `timestamp = data.T ? new Date(data.T) : new Date()` (line 324);
note `data.T` equal to `0` is falsy in JS and also falls back to the
wall clock. -/
def eventTimeOf (ev : RawEvent) (now : Nat) : Nat :=
  match ev.T with
  | some t => if t = 0 then now else t
  | none => now

/-- `(data.s || "").replace(/USDT$/i, "")` (line 330): strip a
case-insensitive `USDT` suffix. -/
def stripUSDT (s : String) : String :=
  let cs := s.toList
  if cs.length ≥ 4 ∧ (cs.drop (cs.length - 4)).map Char.toUpper = ['U', 'S', 'D', 'T'] then
    String.mk (cs.take (cs.length - 4))
  else s

/-- The normalised operation document written to Firestore
(lines 326-339). -/
structure OpRecord where
  order_id : String
  exchange : String
  operation_type : String
  crypto : String
  fiat : String
  crypto_amount : JSNum
  fiat_amount : JSNum
  exchange_rate : JSNum
  fee : JSNum
  profit : JSNum
  raw : RawEvent
  timestamp : Nat
deriving DecidableEq

/-- Construction of `operationData` in the message handler. -/
def mkOperationData (ev : RawEvent) (now : Nat) : OpRecord :=
  { order_id := orderIdOf ev now
    exchange := "Binance"
    operation_type := if ev.S = some "SELL" then "Venta" else "Compra"
    crypto := stripUSDT (ev.s.getD "")
    fiat := "USDT"
    crypto_amount := executedQtyOf ev
    fiat_amount := cumQuoteOf ev
    exchange_rate := rateOf ev
    fee := .num 0
    profit := .num 0
    raw := ev
    timestamp := eventTimeOf ev now }

/-! ## Association-list documents (Firestore collections) -/

/-- Firestore document lookup in a collection keyed by document id. -/
def alookup {α : Type} : List (String × α) → String → Option α
  | [], _ => none
  | (k, v) :: rest, key => if k = key then some v else alookup rest key

/-- Firestore `doc(id).set(...)`: replace the document with that id, or
create it.  The handler passes every field of the record, so `set`
with `{ merge: true }` coincides with replacement here. -/
def aset {α : Type} (key : String) (v : α) : List (String × α) → List (String × α)
  | [] => [(key, v)]
  | (k, w) :: rest => if k = key then (key, v) :: rest else (k, w) :: aset key v rest

/-- Number of documents in a collection carrying a given id. -/
def countKey {α : Type} (key : String) (l : List (String × α)) : Nat :=
  l.countP (fun e => e.1 == key)

/-- The `ws.on("message")` handler restricted to its persistent effect
on one user's `users/{uid}/operations` collection: execution reports
are normalised and merge-written under their order id; every other
frame leaves the store unchanged. -/
def handleMessage (store : List (String × OpRecord)) (ev : RawEvent) (now : Nat) :
    List (String × OpRecord) :=
  if ev.e = some "executionReport" then
    aset (orderIdOf ev now) (mkOperationData ev now) store
  else store

/-! ## Session registry and lifecycle (lines 278-417, 423-506) -/

/-- WebSocket readiness: `new WebSocket(...)` starts `connecting`; the
`open` event moves it to `opened`; `close()` / the `close` event end in
`closed`. -/
inductive SockState where
  | connecting : SockState
  | opened : SockState
  | closed : SockState
deriving DecidableEq

/-- One entry of the in-memory `streams` map plus the state of the
resources it owns: the socket and the renewal interval
(`streams[uid] = { ws, renewIntervalId, listenKey }`). -/
structure SessionRec where
  uid : String
  sock : SockState
  timer : Bool
  listenKey : String
deriving DecidableEq

/-- A persisted `users/{uid}` document (the fields the code touches). -/
structure UserDoc where
  binanceApiKey : Option String
  binanceApiSecret : Option (List Nat)
  binanceConnected : Bool
  lastListenKey : Option String
deriving DecidableEq

def emptyDoc : UserDoc :=
  { binanceApiKey := none, binanceApiSecret := none
    binanceConnected := false, lastListenKey := none }

/-- Process state: every session object ever created (indexed by a
fresh id; a JS closure keeps the old object alive even after the map
entry is replaced, so old sockets/timers remain observable), the
`streams` map (a JS object: per key one slot), and the Firestore
`users` collection. -/
structure ServerState where
  sessions : Nat → Option SessionRec
  nextSid : Nat
  registry : String → Option Nat
  users : List (String × UserDoc)

def initState : ServerState :=
  { sessions := fun _ => none, nextSid := 0
    registry := fun _ => none, users := [] }

/-- Apply `f` to the session object with id `sid`, if any. -/
def updSession (st : ServerState) (sid : Nat) (f : SessionRec → SessionRec) : ServerState :=
  { st with sessions := fun j => if j = sid then (st.sessions j).map f else st.sessions j }

/-- Firestore `users.doc(uid).set(..., { merge: true })` applied
through an update function of the existing document (or a fresh one). -/
def setUser (st : ServerState) (uid : String) (f : UserDoc → UserDoc) : ServerState :=
  { st with users := aset uid (f ((alookup st.users uid).getD emptyDoc)) st.users }

/-- Outcome of the venue call `POST /api/v3/userDataStream`: a listen
key, or a thrown error (credential rejection, network failure, or a
response without a listenKey — all reach the same `catch`). -/
inductive TokenResult where
  | ok (listenKey : String) : TokenResult
  | err : TokenResult
deriving DecidableEq

/-- The effect of `stopUserStream` on the session object it found:
`s.ws.close()` is called only when `readyState === OPEN` (and does
nothing when the `close` call itself throws), and `clearInterval`
always disarms the renewal timer. -/
def disarm (closeThrew : Bool) (s : SessionRec) : SessionRec :=
  { s with
      sock := if s.sock = .opened ∧ closeThrew = false then .closed else s.sock
      timer := false }

/-- `stopUserStream(uid)` (lines 400-417): look up `streams[uid]`; if
present, close the socket — but only when `readyState === OPEN`, and
inside a `try` whose failure (`closeThrew`) is ignored — always clear
the renewal interval, and always delete the map entry. -/
def stopUserStream (st : ServerState) (uid : String) (closeThrew : Bool) : ServerState :=
  match st.registry uid with
  | none => st
  | some sid =>
      let st1 := updSession st sid (disarm closeThrew)
      { st1 with registry := fun u => if u = uid then none else st1.registry u }

/-- Steps 2-3 of a successful `startUserStream`: create the WebSocket
(state `connecting`), arm the renewal interval, and store the triple in
`streams[uid]` under a fresh session id. -/
def allocSession (st : ServerState) (uid listenKey : String) : ServerState :=
  { st with
      sessions := fun j =>
        if j = st.nextSid then
          some { uid := uid, sock := .connecting, timer := true, listenKey := listenKey }
        else st.sessions j
      nextSid := st.nextSid + 1
      registry := fun u => if u = uid then some st.nextSid else st.registry u }

/-- `startUserStream(uid, apiKey, apiSecretPlain)` (lines 287-398):
stop any existing stream for `uid` first, then request a listen key;
on failure the surrounding `catch` only logs (no rethrow), leaving the
state of step 1.  On success a socket is created (state `connecting`),
the renewal interval armed, the pair registered in `streams[uid]`, and
`lastListenKey` recorded on the user document.  `apiSecretPlain` is —
as in the source — never used by the body. -/
def startUserStream (st : ServerState) (uid apiKey : String) (apiSecretPlain : List Nat)
    (tok : TokenResult) (closeThrew : Bool) : ServerState :=
  let st1 := if (st.registry uid).isSome then stopUserStream st uid closeThrew else st
  match tok with
  | .err => st1
  | .ok listenKey =>
      setUser (allocSession st1 uid listenKey) uid
        (fun d => { d with lastListenKey := some listenKey })

/-- HTTP outcome of a handler. -/
inductive HResp where
  | okResp : HResp
  | badRequest : HResp
deriving DecidableEq

/-- The `POST /connect-binance` handler (lines 423-450): validate the
three fields, persist `{ binanceApiKey, binanceApiSecret: encrypt(..),
binanceConnected: true }` with merge, then `await startUserStream` and
answer success.  Note the connected flag is written **before** the
stream is attempted, and `startUserStream` never throws. -/
def connectBinance (enckey : Option (List Nat)) (st : ServerState) (uid apiKey : String)
    (apiSecret iv : List Nat) (tok : TokenResult) (closeThrew : Bool) : ServerState × HResp :=
  if uid = "" ∨ apiKey = "" ∨ apiSecret = [] then (st, .badRequest)
  else
    let st1 := setUser st uid (fun d =>
      { d with
          binanceApiKey := some apiKey
          binanceApiSecret := some (encrypt enckey iv apiSecret)
          binanceConnected := true })
    let secretPlain := decrypt enckey (encrypt enckey iv apiSecret)
    (startUserStream st1 uid apiKey secretPlain tok closeThrew, .okResp)

/-- The `POST /disconnect-binance` handler (lines 456-478): validate
`uid`, stop the stream, persist `binanceConnected: false`, answer
success. -/
def disconnectBinance (st : ServerState) (uid : String) (closeThrew : Bool) :
    ServerState × HResp :=
  if uid = "" then (st, .badRequest)
  else
    let st1 := stopUserStream st uid closeThrew
    (setUser st1 uid (fun d => { d with binanceConnected := false }), .okResp)

/-- The `ws.on("open")` event for the socket of session `sid`. -/
def doSockOpen (st : ServerState) (sid : Nat) : ServerState :=
  match st.sessions sid with
  | none => st
  | some s =>
      if s.sock = .connecting then updSession st sid (fun s => { s with sock := .opened })
      else st

/-- The `ws.on("close")` event for the socket of session `sid` (lines
356-360): the socket is now closed, and the handler calls
`stopUserStream(uid)` — against whatever `streams[uid]` currently
holds. -/
def doSockClosed (st : ServerState) (sid : Nat) (closeThrew : Bool) : ServerState :=
  match st.sessions sid with
  | none => st
  | some s =>
      let st1 := updSession st sid (fun s => { s with sock := .closed })
      stopUserStream st1 s.uid closeThrew

/-- One externally observable operation against the server. -/
inductive Op where
  | connect (uid apiKey : String) (apiSecret iv : List Nat) (tok : TokenResult) (closeThrew : Bool) : Op
  | disconnect (uid : String) (closeThrew : Bool) : Op
  | sockOpen (sid : Nat) : Op
  | sockClosed (sid : Nat) (closeThrew : Bool) : Op
  | timerTick (sid : Nat) : Op

/-- Step function.  A renewal tick performs the venue PUT and logs on
failure; it does not change the server state. -/
def step (enckey : Option (List Nat)) (st : ServerState) : Op → ServerState
  | .connect uid apiKey apiSecret iv tok closeThrew =>
      (connectBinance enckey st uid apiKey apiSecret iv tok closeThrew).1
  | .disconnect uid closeThrew => (disconnectBinance st uid closeThrew).1
  | .sockOpen sid => doSockOpen st sid
  | .sockClosed sid closeThrew => doSockClosed st sid closeThrew
  | .timerTick _ => st

/-- Run a sequence of operations. -/
def run (enckey : Option (List Nat)) (st : ServerState) (ops : List Op) : ServerState :=
  ops.foldl (step enckey) st

/-- The renewal timer of session `sid` can fire (its interval is still
armed). -/
def timerCanFire (st : ServerState) (sid : Nat) : Prop :=
  ∃ s, st.sessions sid = some s ∧ s.timer = true

/-! ## Boot recovery (`startAllUserStreamsOnBoot`, lines 484-506) -/

/-- What the boot loop logs for one user: the warning for a document
with missing keys, or the outcome of the attempted stream start
(`startUserStream` reports its own failures in its `catch`). -/
inductive BootReport where
  | missingKeys (uid : String) : BootReport
  | streamFailed (uid : String) : BootReport
  | started (uid : String) : BootReport
deriving DecidableEq

/-- The report the boot loop emits for one user document. -/
def reportOf (outcomes : String → TokenResult) (entry : String × UserDoc) : BootReport :=
  match entry.2.binanceApiKey, entry.2.binanceApiSecret with
  | some _, some _ =>
      match outcomes entry.1 with
      | .err => .streamFailed entry.1
      | .ok _ => .started entry.1
  | _, _ => .missingKeys entry.1

/-- One iteration of the boot `forEach`: skip (with a warning) a
document lacking keys, otherwise decrypt the stored secret and start
the stream, with the venue outcome for that user. -/
def recoverStep (enckey : Option (List Nat)) (outcomes : String → TokenResult)
    (acc : ServerState × List BootReport) (entry : String × UserDoc) :
    ServerState × List BootReport :=
  match entry.2.binanceApiKey, entry.2.binanceApiSecret with
  | some apiKey, some blob =>
      let secretPlain := decrypt enckey blob
      (startUserStream acc.1 entry.1 apiKey secretPlain (outcomes entry.1) false,
       acc.2 ++ [reportOf outcomes entry])
  | _, _ => (acc.1, acc.2 ++ [reportOf outcomes entry])

/-- `startAllUserStreamsOnBoot`: query the users with
`binanceConnected == true` and run the recovery iteration over each. -/
def recoverAll (enckey : Option (List Nat)) (st : ServerState)
    (outcomes : String → TokenResult) : ServerState × List BootReport :=
  (st.users.filter (fun entry => entry.2.binanceConnected)).foldl
    (recoverStep enckey outcomes) (st, [])

/-! ## Registry well-formedness -/

/-- The inductive invariant of the session registry: every `streams`
entry points at an existing session object of that user; every session
whose renewal interval is still armed is the currently registered one
for its user; session ids below `nextSid` are the only allocated
ones. -/
def goodState (st : ServerState) : Prop :=
  (∀ uid sid, st.registry uid = some sid →
      ∃ s, st.sessions sid = some s ∧ s.uid = uid) ∧
  (∀ sid s, st.sessions sid = some s → s.timer = true →
      st.registry s.uid = some sid) ∧
  (∀ sid, st.nextSid ≤ sid → st.sessions sid = none)

/-! # Theorems -/

/-! ## Vault lemmas -/

theorem ksByte_lt (key iv : List Nat) (i : Nat) : ksByte key iv i < 256 :=
  Nat.mod_lt _ (by omega)

theorem encBytes_length (key iv : List Nat) (i : Nat) (l : List Nat) :
    (encBytes key iv i l).length = l.length := by
  induction l generalizing i with
  | nil => rfl
  | cons b bs ih => simp [encBytes, ih]

theorem gcmTag_length (key iv ct : List Nat) : (gcmTag key iv ct).length = 16 := by
  simp [gcmTag]

theorem decBytes_encBytes (key iv : List Nat) (i : Nat) (l : List Nat)
    (h : ∀ b ∈ l, b < 256) : decBytes key iv i (encBytes key iv i l) = l := by
  induction l generalizing i with
  | nil => rfl
  | cons b bs ih =>
      have hb : b < 256 := h b (by simp)
      have hk : ksByte key iv i < 256 := ksByte_lt key iv i
      simp only [encBytes, decBytes]
      rw [ih (i + 1) (fun x hx => h x (by simp [hx]))]
      congr 1
      omega

theorem encBytes_all_lt (key iv : List Nat) (i : Nat) (l : List Nat) :
    ∀ c ∈ encBytes key iv i l, c < 256 := by
  induction l generalizing i with
  | nil => intro c hc; simp [encBytes] at hc
  | cons b bs ih =>
      intro c hc
      simp only [encBytes, List.mem_cons] at hc
      rcases hc with h | h
      · subst h; exact Nat.mod_lt _ (by omega)
      · exact ih (i + 1) c h

/-- Evaluation of the `try` body on a well-shaped blob. -/
theorem decryptTry_parts (key iv t ct : List Nat) (hiv : iv.length = 12)
    (ht : t.length = 16) :
    decryptTry key (iv ++ t ++ ct) = if gcmTag key iv ct = t then some (decBytes key iv 0 ct) else none := by
  have hlen : (iv ++ t ++ ct).length = 28 + ct.length := by
    simp [List.length_append, hiv, ht]; omega
  have htake : (iv ++ t ++ ct).take 12 = iv := by
    rw [List.append_assoc]
    exact List.take_left' hiv
  have hdrop12 : (iv ++ t ++ ct).drop 12 = t ++ ct := by
    rw [List.append_assoc]
    exact List.drop_left' hiv
  have htag : ((iv ++ t ++ ct).drop 12).take 16 = t := by
    rw [hdrop12]; exact List.take_left' ht
  have hct : (iv ++ t ++ ct).drop 28 = ct := by
    have h1 : (28 : Nat) = 12 + 16 := by omega
    rw [h1, ← List.drop_drop, hdrop12]
    exact List.drop_left' ht
  unfold decryptTry
  rw [if_neg (by omega)]
  simp only [htake, htag, hct]

/-- C5: with a fixed valid 32-byte key (and the 12-byte random IV drawn
by `seal`), `unseal (seal secret)` returns exactly the original secret,
for every non-empty byte string. -/
theorem c5_seal_unseal_roundtrip (key iv secret : List Nat) (hk : key.length = 32)
    (hiv : iv.length = 12) (hbytes : ∀ b ∈ secret, b < 256) (hne : secret ≠ []) :
    decrypt (mkEncryptionKey (some key)) (encrypt (mkEncryptionKey (some key)) iv secret) = secret := by
  have hkey : mkEncryptionKey (some key) = some key := by
    simp [mkEncryptionKey, hk]
  rw [hkey]
  simp only [encrypt, decrypt]
  rw [decryptTry_parts key iv _ _ hiv (gcmTag_length key iv _)]
  rw [if_pos rfl]
  simp [decBytes_encBytes key iv 0 secret hbytes]

/-- C5 witness. -/
theorem c5_witness :
    decrypt (mkEncryptionKey (some (List.replicate 32 0)))
      (encrypt (mkEncryptionKey (some (List.replicate 32 0))) (List.replicate 12 0) [1, 2, 3]) = [1, 2, 3] :=
  c5_seal_unseal_roundtrip (List.replicate 32 0) (List.replicate 12 0) [1, 2, 3]
    (by decide) (by decide) (by decide) (by decide)

theorem getD_map_range (n : Nat) (f : Nat → Nat) (j : Nat) (h : j < n) :
    ((List.range n).map f).getD j 0 = f j := by
  rw [List.getD_eq_getElem?_getD, List.getElem?_map, List.getElem?_range h]
  rfl

theorem getD_set_self (l : List Nat) (j b : Nat) (h : j < l.length) :
    (l.set j b).getD j 0 = b := by
  rw [List.getD_eq_getElem?_getD, List.getElem?_set_self h]
  rfl

theorem sum_set_add (l : List Nat) (j b : Nat) (h : j < l.length) :
    (l.set j b).sum + l.getD j 0 = l.sum + b := by
  induction l generalizing j with
  | nil => simp at h
  | cons x xs ih =>
      cases j with
      | zero => simp [List.set]; omega
      | succ k =>
          have hk : k < xs.length := by simpa using h
          have := ih k hk
          simp only [List.set, List.sum_cons, List.getD_cons_succ]
          omega

theorem getD_lt_of_all_lt (l : List Nat) (j : Nat) (h : j < l.length)
    (hall : ∀ c ∈ l, c < 256) : l.getD j 0 < 256 := by
  rw [List.getD_eq_getElem?_getD, List.getElem?_eq_getElem h]
  exact hall _ (l.getElem_mem h)

theorem gcmTag_ne_of_sum (key iv ct ct' : List Nat) (hlen : ct'.length = ct.length)
    (hsum : ct'.sum % 256 ≠ ct.sum % 256) : gcmTag key iv ct' ≠ gcmTag key iv ct := by
  intro heq
  have h0 : (gcmTag key iv ct').getD 0 0 = (gcmTag key iv ct).getD 0 0 := by rw [heq]
  simp only [gcmTag] at h0
  rw [getD_map_range 16 _ 0 (by omega), getD_map_range 16 _ 0 (by omega)] at h0
  unfold tagByte at h0
  rw [hlen] at h0
  omega

/-- C2 (amended): on a blob obtained by sealing under a valid key and
then changing any single byte of the authentication tag or of the
ciphertext, the inner authenticated decryption fails, but `decrypt`
catches the failure and returns the corrupt input unchanged — it never
raises an `IntegrityError` to its caller. -/
theorem c2_amended_tamper_returns_payload (key iv secret : List Nat) (hk : key.length = 32)
    (hiv : iv.length = 12) :
    (∀ j b', j < 16 → b' ≠ (gcmTag key iv (encBytes key iv 0 secret)).getD j 0 →
      decryptTry key
        (iv ++ (gcmTag key iv (encBytes key iv 0 secret)).set j b' ++ encBytes key iv 0 secret) = none ∧
      decrypt (mkEncryptionKey (some key))
        (iv ++ (gcmTag key iv (encBytes key iv 0 secret)).set j b' ++ encBytes key iv 0 secret) =
        iv ++ (gcmTag key iv (encBytes key iv 0 secret)).set j b' ++ encBytes key iv 0 secret) ∧
    (∀ j b', j < (encBytes key iv 0 secret).length → b' < 256 →
      b' ≠ (encBytes key iv 0 secret).getD j 0 →
      decryptTry key
        (iv ++ gcmTag key iv (encBytes key iv 0 secret) ++ (encBytes key iv 0 secret).set j b') = none ∧
      decrypt (mkEncryptionKey (some key))
        (iv ++ gcmTag key iv (encBytes key iv 0 secret) ++ (encBytes key iv 0 secret).set j b') =
        iv ++ gcmTag key iv (encBytes key iv 0 secret) ++ (encBytes key iv 0 secret).set j b') := by
  have hkey : mkEncryptionKey (some key) = some key := by simp [mkEncryptionKey, hk]
  constructor
  · intro j b' hj hb'
    have hlen : ((gcmTag key iv (encBytes key iv 0 secret)).set j b').length = 16 := by
      simp [gcmTag_length]
    have htry : decryptTry key
        (iv ++ (gcmTag key iv (encBytes key iv 0 secret)).set j b' ++ encBytes key iv 0 secret) = none := by
      rw [decryptTry_parts key iv _ _ hiv hlen]
      rw [if_neg]
      intro heq
      have hj' : j < (gcmTag key iv (encBytes key iv 0 secret)).length := by
        rw [gcmTag_length]; exact hj
      have := getD_set_self (gcmTag key iv (encBytes key iv 0 secret)) j b' hj'
      rw [← heq] at this
      exact hb' this.symm
    refine ⟨htry, ?_⟩
    rw [hkey]
    simp only [decrypt, htry, Option.getD_none]
  · intro j b' hj hb256 hb'
    have hsum : ((encBytes key iv 0 secret).set j b').sum % 256 ≠ (encBytes key iv 0 secret).sum % 256 := by
      have hadd := sum_set_add (encBytes key iv 0 secret) j b' hj
      have hd := getD_lt_of_all_lt (encBytes key iv 0 secret) j hj (encBytes_all_lt key iv 0 secret)
      intro heq
      apply hb'
      omega
    have htagne : gcmTag key iv ((encBytes key iv 0 secret).set j b') ≠
        gcmTag key iv (encBytes key iv 0 secret) :=
      gcmTag_ne_of_sum key iv _ _ (by simp) hsum
    have htry : decryptTry key
        (iv ++ gcmTag key iv (encBytes key iv 0 secret) ++ (encBytes key iv 0 secret).set j b') = none := by
      rw [decryptTry_parts key iv _ _ hiv (gcmTag_length key iv _)]
      rw [if_neg htagne]
    refine ⟨htry, ?_⟩
    rw [hkey]
    simp only [decrypt, htry, Option.getD_none]

/-- C2 witness for the amended claim: a concrete sealed blob with its
first tag byte overwritten is returned unchanged by `decrypt`. -/
theorem c2_amended_witness :
    decryptTry (List.replicate 32 0)
      (List.replicate 12 0 ++
        (gcmTag (List.replicate 32 0) (List.replicate 12 0)
          (encBytes (List.replicate 32 0) (List.replicate 12 0) 0 [1, 2, 3])).set 0 7 ++
        encBytes (List.replicate 32 0) (List.replicate 12 0) 0 [1, 2, 3]) = none ∧
    decrypt (mkEncryptionKey (some (List.replicate 32 0)))
      (List.replicate 12 0 ++
        (gcmTag (List.replicate 32 0) (List.replicate 12 0)
          (encBytes (List.replicate 32 0) (List.replicate 12 0) 0 [1, 2, 3])).set 0 7 ++
        encBytes (List.replicate 32 0) (List.replicate 12 0) 0 [1, 2, 3]) =
      List.replicate 12 0 ++
        (gcmTag (List.replicate 32 0) (List.replicate 12 0)
          (encBytes (List.replicate 32 0) (List.replicate 12 0) 0 [1, 2, 3])).set 0 7 ++
        encBytes (List.replicate 32 0) (List.replicate 12 0) 0 [1, 2, 3] :=
  (c2_amended_tamper_returns_payload (List.replicate 32 0) (List.replicate 12 0) [1, 2, 3]
    (by decide) (by decide)).1 0 7 (by decide) (by decide)

/-- C2 counterexample to the claim as stated: a sealed blob tampered in
one ciphertext byte, on which `decrypt` (with a valid 32-byte key) does
not raise — it silently returns the corrupt input itself. -/
theorem c2_counterexample :
    decryptTry (List.replicate 32 0)
      ((encrypt (mkEncryptionKey (some (List.replicate 32 0))) (List.replicate 12 0) [1, 2, 3]).set 28 103) = none ∧
    decrypt (mkEncryptionKey (some (List.replicate 32 0)))
      ((encrypt (mkEncryptionKey (some (List.replicate 32 0))) (List.replicate 12 0) [1, 2, 3]).set 28 103) =
      (encrypt (mkEncryptionKey (some (List.replicate 32 0))) (List.replicate 12 0) [1, 2, 3]).set 28 103 ∧
    (encrypt (mkEncryptionKey (some (List.replicate 32 0))) (List.replicate 12 0) [1, 2, 3]).set 28 103 ≠
      [1, 2, 3] := by decide

/-! ## Normaliser lemmas -/

theorem parseFloat_zero : parseFloat "0" = .num 0 := by
  have h : parseFloat "0" =
      .num ((digitsToNat ['0'] : ℚ) + (digitsToNat ([] : List Char) : ℚ) / 10 ^ (0 : Nat)) := rfl
  have h0 : digitsToNat ['0'] = 0 := rfl
  have h1 : digitsToNat ([] : List Char) = 0 := rfl
  rw [h, h0, h1]
  norm_num

theorem parseFloat_half : parseFloat "0.5" = .num (1 / 2) := by
  have h : parseFloat "0.5" =
      .num ((digitsToNat ['0'] : ℚ) + (digitsToNat ['5'] : ℚ) / 10 ^ (1 : Nat)) := rfl
  have h0 : digitsToNat ['0'] = 0 := rfl
  have h1 : digitsToNat ['5'] = 5 := rfl
  rw [h, h0, h1]
  norm_num

theorem parseFloat_15000 : parseFloat "15000" = .num 15000 := by
  have h : parseFloat "15000" =
      .num ((digitsToNat ['1', '5', '0', '0', '0'] : ℚ) +
        (digitsToNat ([] : List Char) : ℚ) / 10 ^ (0 : Nat)) := rfl
  have h0 : digitsToNat ['1', '5', '0', '0', '0'] = 15000 := rfl
  have h1 : digitsToNat ([] : List Char) = 0 := rfl
  rw [h, h0, h1]
  norm_num

/-- C6: the handler computes `rate = quoteAmount / baseAmount` with a
falsy (in particular zero) `baseAmount` replaced by `1` as divisor, and
division is total in the model (never an exception); on the frame with
executed quantity `0.5` and cumulative quote `15000` the rate is
`30000`, and on the frame with executed quantity `0` it is `15000`. -/
theorem c6_rate_division_guard :
    (∀ (ev : RawEvent) (b qv : ℚ), executedQtyOf ev = .num b → cumQuoteOf ev = .num qv →
      rateOf ev = .num (if b = 0 then qv else qv / b)) ∧
    rateOf { e := some "executionReport", i := some "1", l := some "0.5", q := none,
             Z := some "15000", z := none, S := some "SELL", s := some "BTCUSDT",
             T := some 5 } = .num 30000 ∧
    rateOf { e := some "executionReport", i := some "1", l := some "0", q := none,
             Z := some "15000", z := none, S := some "SELL", s := some "BTCUSDT",
             T := some 5 } = .num 15000 := by
  have hgen : ∀ (ev : RawEvent) (b qv : ℚ), executedQtyOf ev = .num b →
      cumQuoteOf ev = .num qv → rateOf ev = .num (if b = 0 then qv else qv / b) := by
    intro ev b qv hb hq
    unfold rateOf
    rw [hb, hq]
    by_cases h0 : b = 0
    · subst h0
      simp [jsOrNum, JSNum.truthy, jsDiv]
    · rw [if_neg h0]
      simp [jsOrNum, JSNum.truthy, jsDiv, h0]
  refine ⟨hgen, ?_, ?_⟩
  · have h := hgen
      { e := some "executionReport", i := some "1", l := some "0.5", q := none,
        Z := some "15000", z := none, S := some "SELL", s := some "BTCUSDT", T := some 5 }
      (1 / 2) 15000 parseFloat_half parseFloat_15000
    rw [h]
    norm_num
  · have h := hgen
      { e := some "executionReport", i := some "1", l := some "0", q := none,
        Z := some "15000", z := none, S := some "SELL", s := some "BTCUSDT", T := some 5 }
      0 15000 parseFloat_zero parseFloat_15000
    rw [h]
    norm_num

/-- C6 witness: the general rate equation instantiated on the concrete
`0.5` / `15000` frame. -/
theorem c6_witness :
    rateOf { e := some "executionReport", i := some "1", l := some "0.5", q := none,
             Z := some "15000", z := none, S := some "SELL", s := some "BTCUSDT",
             T := some 5 } = .num (if (1 / 2 : ℚ) = 0 then 15000 else 15000 / (1 / 2)) :=
  c6_rate_division_guard.1
    { e := some "executionReport", i := some "1", l := some "0.5", q := none,
      Z := some "15000", z := none, S := some "SELL", s := some "BTCUSDT", T := some 5 }
    (1 / 2) 15000 parseFloat_half parseFloat_15000

/-- C7 counterexample to the claim as stated: an execution report whose
executed-quantity field holds the non-numeric string `"abc"` parses to
NaN, not to `0` (the `|| "0"` default only catches missing or empty
fields, it does not convert a NaN parse result). -/
theorem c7_counterexample :
    executedQtyOf { e := some "executionReport", i := some "1", l := some "abc", q := none,
                    Z := some "15000", z := none, S := some "SELL", s := some "BTCUSDT",
                    T := some 5 } = JSNum.nan ∧ JSNum.nan ≠ JSNum.num 0 := by decide

/-- C7 (amended): the executed-quantity and cumulative-quote fields are
parsed as decimals; a missing (or empty-string) field parses to `0` via
the `|| "0"` default, and parsing is total — a present non-numeric
value yields NaN rather than an exception, never a crash. -/
theorem c7_amended_missing_parses_zero :
    (∀ ev : RawEvent, (ev.l = none ∨ ev.l = some "") → (ev.q = none ∨ ev.q = some "") →
      executedQtyOf ev = .num 0) ∧
    (∀ ev : RawEvent, (ev.Z = none ∨ ev.Z = some "") → (ev.z = none ∨ ev.z = some "") →
      cumQuoteOf ev = .num 0) ∧
    (∀ str : String, parseFloat str = .nan ∨ ∃ q : ℚ, parseFloat str = .num q) := by
  refine ⟨?_, ?_, ?_⟩
  · intro ev hl hq
    unfold executedQtyOf
    rcases hl with hl | hl <;> rcases hq with hq | hq <;>
      simp only [strOr, hl, hq, if_pos rfl] <;> exact parseFloat_zero
  · intro ev hZ hz
    unfold cumQuoteOf
    rcases hZ with hZ | hZ <;> rcases hz with hz | hz <;>
      simp only [strOr, hZ, hz, if_pos rfl] <;> exact parseFloat_zero
  · intro str
    unfold parseFloat
    dsimp only
    split
    · exact Or.inl rfl
    · exact Or.inr ⟨_, rfl⟩

/-- C7 amended witness: a frame with both quantity fields missing
parses its executed quantity to `0`. -/
theorem c7_amended_witness :
    executedQtyOf { e := some "executionReport", i := some "1", l := none, q := none,
                    Z := some "15000", z := none, S := some "SELL", s := some "BTCUSDT",
                    T := some 5 } = .num 0 :=
  c7_amended_missing_parses_zero.1
    { e := some "executionReport", i := some "1", l := none, q := none,
      Z := some "15000", z := none, S := some "SELL", s := some "BTCUSDT", T := some 5 }
    (Or.inl rfl) (Or.inl rfl)

/-! ## Store lemmas -/

theorem alookup_aset_self {α : Type} (key : String) (v : α) (l : List (String × α)) :
    alookup (aset key v l) key = some v := by
  induction l with
  | nil => simp [aset, alookup]
  | cons e rest ih =>
      by_cases h : e.1 = key
      · simp [aset, h, alookup]
      · simp [aset, h, alookup, ih]

theorem countKey_cons {α : Type} (key : String) (e : String × α) (l : List (String × α)) :
    countKey key (e :: l) = countKey key l + (if e.1 = key then 1 else 0) := by
  by_cases h : e.1 = key <;> simp [countKey, List.countP_cons, h]

theorem countKey_aset {α : Type} (key : String) (v : α) (l : List (String × α))
    (h : countKey key l ≤ 1) : countKey key (aset key v l) = 1 := by
  induction l with
  | nil =>
      show countKey key [(key, v)] = 1
      rw [countKey_cons, if_pos rfl]
      rfl
  | cons e rest ih =>
      obtain ⟨k, w⟩ := e
      rw [countKey_cons] at h
      by_cases he : k = key
      · rw [if_pos he] at h
        have hrest : countKey key rest = 0 := by omega
        simp only [aset, if_pos he]
        rw [countKey_cons, if_pos rfl, hrest]
      · rw [if_neg he] at h
        simp only [aset, if_neg he]
        rw [countKey_cons, if_neg he, ih (by omega)]

/-- C9: two execution-report frames carrying the same order id,
processed in sequence, leave exactly one stored record under that order
id, and its fields are those of the second frame (merge write,
last-write-wins, no duplicate insert). -/
theorem c9_merge_write_last_wins (store : List (String × OpRecord)) (ev1 ev2 : RawEvent)
    (now1 now2 : Nat) (oid : String)
    (he1 : ev1.e = some "executionReport") (he2 : ev2.e = some "executionReport")
    (hid1 : orderIdOf ev1 now1 = oid) (hid2 : orderIdOf ev2 now2 = oid)
    (hstore : countKey oid store ≤ 1) :
    alookup (handleMessage (handleMessage store ev1 now1) ev2 now2) oid =
      some (mkOperationData ev2 now2) ∧
    countKey oid (handleMessage (handleMessage store ev1 now1) ev2 now2) = 1 := by
  unfold handleMessage
  rw [if_pos he1, if_pos he2, hid1, hid2]
  constructor
  · exact alookup_aset_self oid _ _
  · exact countKey_aset oid _ _ (le_of_eq (countKey_aset oid _ store hstore))

/-- C9 witness: the two concrete partial-fill frames for order `42`. -/
theorem c9_witness :
    alookup
      (handleMessage
        (handleMessage []
          { e := some "executionReport", i := some "42", l := some "0.5", q := none,
            Z := some "10000", z := none, S := some "SELL", s := some "BTCUSDT", T := some 5 } 7)
        { e := some "executionReport", i := some "42", l := some "1.0", q := none,
          Z := some "20000", z := none, S := some "SELL", s := some "BTCUSDT", T := some 6 } 8)
      "42" =
      some (mkOperationData
        { e := some "executionReport", i := some "42", l := some "1.0", q := none,
          Z := some "20000", z := none, S := some "SELL", s := some "BTCUSDT", T := some 6 } 8) :=
  (c9_merge_write_last_wins []
    { e := some "executionReport", i := some "42", l := some "0.5", q := none,
      Z := some "10000", z := none, S := some "SELL", s := some "BTCUSDT", T := some 5 }
    { e := some "executionReport", i := some "42", l := some "1.0", q := none,
      Z := some "20000", z := none, S := some "SELL", s := some "BTCUSDT", T := some 6 }
    7 8 "42" rfl rfl (by decide) (by decide) (by decide)).1

/-! ## Registry lemmas -/

theorem stop_eq_of_none (st : ServerState) (uid : String) (ct : Bool)
    (hreg : st.registry uid = none) : stopUserStream st uid ct = st := by
  unfold stopUserStream
  rw [hreg]

theorem stop_registry (st : ServerState) (uid : String) (ct : Bool) (sid : Nat) (u : String)
    (hreg : st.registry uid = some sid) :
    (stopUserStream st uid ct).registry u = if u = uid then none else st.registry u := by
  unfold stopUserStream
  rw [hreg]
  rfl

theorem stop_registry_self (st : ServerState) (uid : String) (ct : Bool) :
    (stopUserStream st uid ct).registry uid = none := by
  cases hreg : st.registry uid with
  | none => rw [stop_eq_of_none st uid ct hreg]; exact hreg
  | some sid => rw [stop_registry st uid ct sid uid hreg, if_pos rfl]

theorem stop_registry_ne (st : ServerState) (uid u : String) (ct : Bool) (h : u ≠ uid) :
    (stopUserStream st uid ct).registry u = st.registry u := by
  cases hreg : st.registry uid with
  | none => rw [stop_eq_of_none st uid ct hreg]
  | some sid => rw [stop_registry st uid ct sid u hreg, if_neg h]

theorem stop_sessions (st : ServerState) (uid : String) (ct : Bool) (sid j : Nat)
    (hreg : st.registry uid = some sid) :
    (stopUserStream st uid ct).sessions j =
      if j = sid then (st.sessions j).map (disarm ct) else st.sessions j := by
  unfold stopUserStream
  rw [hreg]
  rfl

theorem stop_nextSid (st : ServerState) (uid : String) (ct : Bool) :
    (stopUserStream st uid ct).nextSid = st.nextSid := by
  unfold stopUserStream
  cases hreg : st.registry uid <;> rfl

theorem stop_users (st : ServerState) (uid : String) (ct : Bool) :
    (stopUserStream st uid ct).users = st.users := by
  unfold stopUserStream
  cases hreg : st.registry uid <;> rfl

theorem goodState_setUser (st : ServerState) (uid : String) (f : UserDoc → UserDoc)
    (h : goodState st) : goodState (setUser st uid f) := h

theorem goodState_stop (st : ServerState) (uid : String) (ct : Bool) (h : goodState st) :
    goodState (stopUserStream st uid ct) := by
  obtain ⟨h1, h2, h3⟩ := h
  cases hreg : st.registry uid with
  | none => rw [stop_eq_of_none st uid ct hreg]; exact ⟨h1, h2, h3⟩
  | some sid =>
      refine ⟨?_, ?_, ?_⟩
      · intro u sid' hu
        rw [stop_registry st uid ct sid u hreg] at hu
        by_cases hcase : u = uid
        · rw [if_pos hcase] at hu; cases hu
        · rw [if_neg hcase] at hu
          obtain ⟨s, hs, hsu⟩ := h1 u sid' hu
          rw [stop_sessions st uid ct sid sid' hreg]
          by_cases hsid : sid' = sid
          · subst hsid
            rw [if_pos rfl, hs]
            exact ⟨disarm ct s, rfl, hsu⟩
          · rw [if_neg hsid]
            exact ⟨s, hs, hsu⟩
      · intro sid' s' hs' ht'
        rw [stop_sessions st uid ct sid sid' hreg] at hs'
        rw [stop_registry st uid ct sid s'.uid hreg]
        by_cases hsid : sid' = sid
        · subst hsid
          rw [if_pos rfl] at hs'
          cases hsess : st.sessions sid' with
          | none => rw [hsess] at hs'; cases hs'
          | some s0 =>
              rw [hsess] at hs'
              simp only [Option.map_some'] at hs'
              injection hs' with hs'
              rw [← hs'] at ht'
              simp [disarm] at ht'
        · rw [if_neg hsid] at hs'
          have hr := h2 sid' s' hs' ht'
          by_cases hu : s'.uid = uid
          · rw [hu, hreg] at hr
            cases hr
            exact absurd rfl hsid
          · rw [if_neg hu]
            exact hr
      · intro sid' hle
        rw [stop_nextSid] at hle
        rw [stop_sessions st uid ct sid sid' hreg]
        by_cases hsid : sid' = sid
        · subst hsid; rw [if_pos rfl, h3 sid' hle]; rfl
        · rw [if_neg hsid]; exact h3 sid' hle

theorem updSession_sessions (st : ServerState) (sid : Nat) (f : SessionRec → SessionRec) (j : Nat) :
    (updSession st sid f).sessions j =
      if j = sid then (st.sessions j).map f else st.sessions j := rfl

theorem goodState_updSession (st : ServerState) (sid : Nat) (f : SessionRec → SessionRec)
    (hfu : ∀ s, (f s).uid = s.uid) (hft : ∀ s, (f s).timer = true → s.timer = true)
    (h : goodState st) : goodState (updSession st sid f) := by
  obtain ⟨h1, h2, h3⟩ := h
  refine ⟨?_, ?_, ?_⟩
  · intro u sid' hu
    obtain ⟨s, hs, hsu⟩ := h1 u sid' hu
    rw [updSession_sessions]
    by_cases hsid : sid' = sid
    · rw [if_pos hsid, hs]
      exact ⟨f s, rfl, by rw [hfu]; exact hsu⟩
    · rw [if_neg hsid]
      exact ⟨s, hs, hsu⟩
  · intro sid' s' hs' ht'
    rw [updSession_sessions] at hs'
    by_cases hsid : sid' = sid
    · rw [if_pos hsid] at hs'
      cases hsess : st.sessions sid' with
      | none => rw [hsess] at hs'; cases hs'
      | some s0 =>
          rw [hsess] at hs'
          simp only [Option.map_some'] at hs'
          injection hs' with hs'
          have hu0 : s'.uid = s0.uid := by rw [← hs']; exact hfu s0
          have ht0 : s0.timer = true := hft s0 (by rw [hs']; exact ht')
          rw [hu0]
          exact h2 sid' s0 hsess ht0
    · rw [if_neg hsid] at hs'
      exact h2 sid' s' hs' ht'
  · intro sid' hle
    rw [updSession_sessions]
    by_cases hsid : sid' = sid
    · rw [if_pos hsid, h3 sid' hle]; rfl
    · rw [if_neg hsid]; exact h3 sid' hle

theorem no_armed_of_unregistered (st : ServerState) (uid : String) (h : goodState st)
    (hreg : st.registry uid = none) :
    ∀ sid s, st.sessions sid = some s → s.uid = uid → s.timer = false := by
  intro sid s hs hsu
  cases ht : s.timer with
  | false => rfl
  | true =>
      have := h.2.1 sid s hs ht
      rw [hsu, hreg] at this
      cases this

theorem setUser_registry (st : ServerState) (uid : String) (f : UserDoc → UserDoc) :
    (setUser st uid f).registry = st.registry := rfl

theorem setUser_sessions (st : ServerState) (uid : String) (f : UserDoc → UserDoc) :
    (setUser st uid f).sessions = st.sessions := rfl

theorem setUser_nextSid (st : ServerState) (uid : String) (f : UserDoc → UserDoc) :
    (setUser st uid f).nextSid = st.nextSid := rfl

theorem alloc_registry (st : ServerState) (uid lk u : String) :
    (allocSession st uid lk).registry u =
      if u = uid then some st.nextSid else st.registry u := rfl

theorem alloc_sessions (st : ServerState) (uid lk : String) (j : Nat) :
    (allocSession st uid lk).sessions j =
      if j = st.nextSid then
        some { uid := uid, sock := .connecting, timer := true, listenKey := lk }
      else st.sessions j := rfl

theorem alloc_nextSid (st : ServerState) (uid lk : String) :
    (allocSession st uid lk).nextSid = st.nextSid + 1 := rfl

theorem start_err_eq (st : ServerState) (uid k : String) (sec : List Nat) (ct : Bool) :
    startUserStream st uid k sec .err ct =
      (if (st.registry uid).isSome then stopUserStream st uid ct else st) := rfl

theorem start_ok_eq (st : ServerState) (uid k : String) (sec : List Nat) (lk : String) (ct : Bool) :
    startUserStream st uid k sec (.ok lk) ct =
      setUser
        (allocSession (if (st.registry uid).isSome then stopUserStream st uid ct else st) uid lk)
        uid (fun d => { d with lastListenKey := some lk }) := rfl

theorem sid_lt_of_some (st : ServerState) (h : goodState st) (sid : Nat) (s : SessionRec)
    (hs : st.sessions sid = some s) : sid < st.nextSid := by
  by_contra hge
  rw [h.2.2 sid (by omega)] at hs
  cases hs

theorem stopOrId_registry_none (st : ServerState) (uid : String) (ct : Bool) :
    (if (st.registry uid).isSome then stopUserStream st uid ct else st).registry uid = none := by
  by_cases hx : (st.registry uid).isSome
  · rw [if_pos hx]; exact stop_registry_self st uid ct
  · rw [if_neg hx]
    cases hreg : st.registry uid with
    | none => rfl
    | some sid => rw [hreg] at hx; exact absurd rfl hx

theorem stopOrId_nextSid (st : ServerState) (uid : String) (ct : Bool) :
    (if (st.registry uid).isSome then stopUserStream st uid ct else st).nextSid = st.nextSid := by
  by_cases hx : (st.registry uid).isSome
  · rw [if_pos hx]; exact stop_nextSid st uid ct
  · rw [if_neg hx]

theorem stopOrId_good (st : ServerState) (uid : String) (ct : Bool) (h : goodState st) :
    goodState (if (st.registry uid).isSome then stopUserStream st uid ct else st) := by
  by_cases hx : (st.registry uid).isSome
  · rw [if_pos hx]; exact goodState_stop st uid ct h
  · rw [if_neg hx]; exact h

theorem goodState_alloc (st : ServerState) (uid lk : String) (h : goodState st)
    (hreg : st.registry uid = none) : goodState (allocSession st uid lk) := by
  obtain ⟨h1, h2, h3⟩ := h
  refine ⟨?_, ?_, ?_⟩
  · intro u sid' hu
    rw [alloc_registry] at hu
    by_cases hc : u = uid
    · subst hc
      rw [if_pos rfl] at hu
      injection hu with hu
      refine ⟨{ uid := u, sock := .connecting, timer := true, listenKey := lk }, ?_, rfl⟩
      rw [alloc_sessions, if_pos hu.symm]
    · rw [if_neg hc] at hu
      obtain ⟨s, hs, hsu⟩ := h1 u sid' hu
      have hne : sid' ≠ st.nextSid := by
        intro he
        rw [he, h3 st.nextSid (Nat.le_refl _)] at hs
        cases hs
      rw [alloc_sessions, if_neg hne]
      exact ⟨s, hs, hsu⟩
  · intro sid' s' hs' ht'
    rw [alloc_sessions] at hs'
    by_cases hc : sid' = st.nextSid
    · rw [if_pos hc] at hs'
      injection hs' with hs'
      have hu : s'.uid = uid := by rw [← hs']
      rw [alloc_registry, hu, if_pos rfl, hc]
    · rw [if_neg hc] at hs'
      have hr := h2 sid' s' hs' ht'
      rw [alloc_registry]
      by_cases hu : s'.uid = uid
      · rw [hu, hreg] at hr
        cases hr
      · rw [if_neg hu]
        exact hr
  · intro sid' hle
    rw [alloc_nextSid] at hle
    rw [alloc_sessions, if_neg (by omega), h3 sid' (by omega)]

theorem goodState_start (st : ServerState) (uid k : String) (sec : List Nat)
    (tok : TokenResult) (ct : Bool) (h : goodState st) :
    goodState (startUserStream st uid k sec tok ct) := by
  cases tok with
  | err => rw [start_err_eq]; exact stopOrId_good st uid ct h
  | ok lk =>
      rw [start_ok_eq]
      exact goodState_setUser _ _ _
        (goodState_alloc _ uid lk (stopOrId_good st uid ct h) (stopOrId_registry_none st uid ct))

theorem connect_eq (enckey : Option (List Nat)) (st : ServerState) (uid k : String)
    (sec iv : List Nat) (tok : TokenResult) (ct : Bool)
    (hval : ¬(uid = "" ∨ k = "" ∨ sec = [])) :
    connectBinance enckey st uid k sec iv tok ct =
      (startUserStream
        (setUser st uid (fun d =>
          { d with
              binanceApiKey := some k
              binanceApiSecret := some (encrypt enckey iv sec)
              binanceConnected := true }))
        uid k (decrypt enckey (encrypt enckey iv sec)) tok ct, .okResp) := by
  unfold connectBinance
  rw [if_neg hval]

theorem disconnect_eq (st : ServerState) (uid : String) (ct : Bool) (hu : uid ≠ "") :
    disconnectBinance st uid ct =
      (setUser (stopUserStream st uid ct) uid (fun d => { d with binanceConnected := false }),
       .okResp) := by
  unfold disconnectBinance
  rw [if_neg hu]

theorem goodState_step (enckey : Option (List Nat)) (st : ServerState) (op : Op)
    (h : goodState st) : goodState (step enckey st op) := by
  cases op with
  | connect uid k sec iv tok ct =>
      show goodState (connectBinance enckey st uid k sec iv tok ct).1
      by_cases hval : uid = "" ∨ k = "" ∨ sec = []
      · unfold connectBinance
        rw [if_pos hval]
        exact h
      · rw [connect_eq enckey st uid k sec iv tok ct hval]
        exact goodState_start _ uid k (decrypt enckey (encrypt enckey iv sec)) tok ct
          (goodState_setUser st uid _ h)
  | disconnect uid ct =>
      show goodState (disconnectBinance st uid ct).1
      by_cases hu : uid = ""
      · unfold disconnectBinance
        rw [if_pos hu]
        exact h
      · rw [disconnect_eq st uid ct hu]
        exact goodState_setUser _ _ _ (goodState_stop st uid ct h)
  | sockOpen sid =>
      show goodState (doSockOpen st sid)
      unfold doSockOpen
      cases hs : st.sessions sid with
      | none => exact h
      | some s =>
          dsimp only
          by_cases hc : s.sock = .connecting
          · rw [if_pos hc]
            exact goodState_updSession st sid _ (fun _ => rfl) (fun _ ht => ht) h
          · rw [if_neg hc]
            exact h
  | sockClosed sid ct =>
      show goodState (doSockClosed st sid ct)
      unfold doSockClosed
      cases hs : st.sessions sid with
      | none => exact h
      | some s =>
          dsimp only
          exact goodState_stop _ _ _
            (goodState_updSession st sid _ (fun _ => rfl) (fun _ ht => ht) h)
  | timerTick sid => exact h

theorem run_nil (enckey : Option (List Nat)) (st : ServerState) : run enckey st [] = st := rfl

theorem run_cons (enckey : Option (List Nat)) (st : ServerState) (op : Op) (ops : List Op) :
    run enckey st (op :: ops) = run enckey (step enckey st op) ops := rfl

theorem goodState_init : goodState initState := by
  refine ⟨?_, ?_, ?_⟩
  · intro uid sid h
    cases h
  · intro sid s h
    cases h
  · intro sid h
    rfl

theorem goodState_run (enckey : Option (List Nat)) (ops : List Op) (st : ServerState)
    (h : goodState st) : goodState (run enckey st ops) := by
  induction ops generalizing st with
  | nil => exact h
  | cons op rest ih =>
      rw [run_cons]
      exact ih _ (goodState_step enckey st op h)

theorem stop_keeps_disarmed (st : ServerState) (uid : String) (ct : Bool) (sid : Nat)
    (s : SessionRec) (hs : st.sessions sid = some s) (ht : s.timer = false) :
    ∃ s', (stopUserStream st uid ct).sessions sid = some s' ∧ s'.timer = false := by
  cases hreg : st.registry uid with
  | none => rw [stop_eq_of_none st uid ct hreg]; exact ⟨s, hs, ht⟩
  | some sid' =>
      rw [stop_sessions st uid ct sid' sid hreg]
      by_cases hc : sid = sid'
      · rw [if_pos hc, hs]
        exact ⟨disarm ct s, rfl, rfl⟩
      · rw [if_neg hc]
        exact ⟨s, hs, ht⟩

theorem stopOrId_keeps_disarmed (st : ServerState) (uid : String) (ct : Bool) (sid : Nat)
    (s : SessionRec) (hs : st.sessions sid = some s) (ht : s.timer = false) :
    ∃ s', (if (st.registry uid).isSome then stopUserStream st uid ct else st).sessions sid =
      some s' ∧ s'.timer = false := by
  by_cases hx : (st.registry uid).isSome
  · rw [if_pos hx]; exact stop_keeps_disarmed st uid ct sid s hs ht
  · rw [if_neg hx]; exact ⟨s, hs, ht⟩

theorem start_keeps_disarmed (st : ServerState) (uid k : String) (sec : List Nat)
    (tok : TokenResult) (ct : Bool) (sid : Nat) (s : SessionRec) (h : goodState st)
    (hs : st.sessions sid = some s) (ht : s.timer = false) :
    ∃ s', (startUserStream st uid k sec tok ct).sessions sid = some s' ∧ s'.timer = false := by
  have hlt : sid < st.nextSid := sid_lt_of_some st h sid s hs
  cases tok with
  | err =>
      rw [start_err_eq]
      exact stopOrId_keeps_disarmed st uid ct sid s hs ht
  | ok lk =>
      rw [start_ok_eq]
      obtain ⟨s', hs', ht'⟩ := stopOrId_keeps_disarmed st uid ct sid s hs ht
      have hn1 := stopOrId_nextSid st uid ct
      rw [setUser_sessions, alloc_sessions, if_neg (by omega)]
      exact ⟨s', hs', ht'⟩

theorem step_keeps_disarmed (enckey : Option (List Nat)) (st : ServerState) (op : Op)
    (sid : Nat) (s : SessionRec) (h : goodState st)
    (hs : st.sessions sid = some s) (ht : s.timer = false) :
    ∃ s', (step enckey st op).sessions sid = some s' ∧ s'.timer = false := by
  cases op with
  | connect uid k sec iv tok ct =>
      show ∃ s', (connectBinance enckey st uid k sec iv tok ct).1.sessions sid = some s' ∧
        s'.timer = false
      by_cases hval : uid = "" ∨ k = "" ∨ sec = []
      · unfold connectBinance
        rw [if_pos hval]
        exact ⟨s, hs, ht⟩
      · rw [connect_eq enckey st uid k sec iv tok ct hval]
        exact start_keeps_disarmed _ uid k (decrypt enckey (encrypt enckey iv sec)) tok ct sid s
          (goodState_setUser st uid _ h) hs ht
  | disconnect uid ct =>
      show ∃ s', (disconnectBinance st uid ct).1.sessions sid = some s' ∧ s'.timer = false
      by_cases hu : uid = ""
      · unfold disconnectBinance
        rw [if_pos hu]
        exact ⟨s, hs, ht⟩
      · rw [disconnect_eq st uid ct hu]
        exact stop_keeps_disarmed st uid ct sid s hs ht
  | sockOpen sid' =>
      show ∃ s', (doSockOpen st sid').sessions sid = some s' ∧ s'.timer = false
      unfold doSockOpen
      cases hx : st.sessions sid' with
      | none => exact ⟨s, hs, ht⟩
      | some s2 =>
          dsimp only
          by_cases hc : s2.sock = .connecting
          · rw [if_pos hc, updSession_sessions]
            by_cases hj : sid = sid'
            · rw [if_pos hj, hs]
              exact ⟨_, rfl, ht⟩
            · rw [if_neg hj]
              exact ⟨s, hs, ht⟩
          · rw [if_neg hc]
            exact ⟨s, hs, ht⟩
  | sockClosed sid' ct =>
      show ∃ s', (doSockClosed st sid' ct).sessions sid = some s' ∧ s'.timer = false
      unfold doSockClosed
      cases hx : st.sessions sid' with
      | none => exact ⟨s, hs, ht⟩
      | some s2 =>
          dsimp only
          have hmid : ∃ s1, (updSession st sid' (fun s => { s with sock := .closed })).sessions sid =
              some s1 ∧ s1.timer = false := by
            rw [updSession_sessions]
            by_cases hj : sid = sid'
            · rw [if_pos hj, hs]
              exact ⟨_, rfl, ht⟩
            · rw [if_neg hj]
              exact ⟨s, hs, ht⟩
          obtain ⟨s1, hs1, ht1⟩ := hmid
          exact stop_keeps_disarmed _ _ _ sid s1 hs1 ht1
  | timerTick sid' => exact ⟨s, hs, ht⟩

theorem run_keeps_disarmed (enckey : Option (List Nat)) (ops : List Op) (st : ServerState)
    (sid : Nat) (s : SessionRec) (h : goodState st)
    (hs : st.sessions sid = some s) (ht : s.timer = false) :
    ∃ s', (run enckey st ops).sessions sid = some s' ∧ s'.timer = false := by
  induction ops generalizing st s with
  | nil => exact ⟨s, hs, ht⟩
  | cons op rest ih =>
      obtain ⟨s1, hs1, ht1⟩ := step_keeps_disarmed enckey st op sid s h hs ht
      rw [run_cons]
      exact ih (step enckey st op) s1 (goodState_step enckey st op h) hs1 ht1

theorem armed_unique (st : ServerState) (h : goodState st) (sid₁ sid₂ : Nat)
    (s₁ s₂ : SessionRec) (hs₁ : st.sessions sid₁ = some s₁) (hs₂ : st.sessions sid₂ = some s₂)
    (huid : s₁.uid = s₂.uid) (ht₁ : s₁.timer = true) (ht₂ : s₂.timer = true) : sid₁ = sid₂ := by
  have r₁ := h.2.1 sid₁ s₁ hs₁ ht₁
  have r₂ := h.2.1 sid₂ s₂ hs₂ ht₂
  rw [huid] at r₁
  rw [r₁] at r₂
  injection r₂

theorem start_ok_shape (st : ServerState) (uid k : String) (sec : List Nat) (lk : String)
    (ct : Bool) :
    ∃ sid, (startUserStream st uid k sec (.ok lk) ct).registry uid = some sid ∧
      (startUserStream st uid k sec (.ok lk) ct).sessions sid =
        some { uid := uid, sock := .connecting, timer := true, listenKey := lk } := by
  rw [start_ok_eq]
  refine ⟨(if (st.registry uid).isSome then stopUserStream st uid ct else st).nextSid, ?_, ?_⟩
  · rw [setUser_registry, alloc_registry, if_pos rfl]
  · rw [setUser_sessions, alloc_sessions, if_pos rfl]

theorem start_disarms_old (st : ServerState) (uid k : String) (sec : List Nat)
    (tok : TokenResult) (ct : Bool) (sidOld : Nat) (h : goodState st)
    (hreg : st.registry uid = some sidOld) :
    (∃ s', (startUserStream st uid k sec tok ct).sessions sidOld = some s' ∧ s'.timer = false) ∧
    (startUserStream st uid k sec tok ct).registry uid ≠ some sidOld := by
  obtain ⟨s0, hs0, hs0u⟩ := h.1 uid sidOld hreg
  have hlt : sidOld < st.nextSid := sid_lt_of_some st h sidOld s0 hs0
  have hisSome : (st.registry uid).isSome = true := by rw [hreg]; rfl
  have hif : (if (st.registry uid).isSome then stopUserStream st uid ct else st) =
      stopUserStream st uid ct := if_pos hisSome
  cases tok with
  | err =>
      rw [start_err_eq, hif]
      constructor
      · rw [stop_sessions st uid ct sidOld sidOld hreg, if_pos rfl, hs0]
        exact ⟨disarm ct s0, rfl, rfl⟩
      · rw [stop_registry_self]
        intro hx
        cases hx
  | ok lk =>
      rw [start_ok_eq, hif]
      have hnext : (stopUserStream st uid ct).nextSid = st.nextSid := stop_nextSid st uid ct
      constructor
      · have hne : sidOld ≠ (stopUserStream st uid ct).nextSid := by rw [hnext]; omega
        rw [setUser_sessions, alloc_sessions, if_neg hne]
        rw [stop_sessions st uid ct sidOld sidOld hreg, if_pos rfl, hs0]
        exact ⟨disarm ct s0, rfl, rfl⟩
      · rw [setUser_registry, alloc_registry, if_pos rfl]
        intro hx
        injection hx with hx
        rw [hnext] at hx
        omega

theorem start_preserves_other (st : ServerState) (uid uid' k : String) (sec : List Nat)
    (tok : TokenResult) (ct : Bool) (h : goodState st) (hne : uid ≠ uid') :
    (startUserStream st uid' k sec tok ct).registry uid = st.registry uid ∧
    ∀ sid, st.registry uid = some sid →
      (startUserStream st uid' k sec tok ct).sessions sid = st.sessions sid := by
  have hr1 : (if (st.registry uid').isSome then stopUserStream st uid' ct else st).registry uid =
      st.registry uid := by
    by_cases hx : (st.registry uid').isSome
    · rw [if_pos hx]
      exact stop_registry_ne st uid' uid ct hne
    · rw [if_neg hx]
  have hs1 : ∀ sid, st.registry uid = some sid →
      (if (st.registry uid').isSome then stopUserStream st uid' ct else st).sessions sid =
        st.sessions sid := by
    intro sid hsid
    by_cases hx : (st.registry uid').isSome
    · rw [if_pos hx]
      cases hreg' : st.registry uid' with
      | none => rw [hreg'] at hx; cases hx
      | some sid' =>
          have hne2 : sid ≠ sid' := by
            intro he
            obtain ⟨s, hs, hsu⟩ := h.1 uid sid hsid
            obtain ⟨s2, hs2, hsu2⟩ := h.1 uid' sid' hreg'
            rw [he, hs2] at hs
            injection hs with hs
            rw [hs] at hsu2
            rw [hsu] at hsu2
            exact hne hsu2
          rw [stop_sessions st uid' ct sid' sid hreg', if_neg hne2]
    · rw [if_neg hx]
  cases tok with
  | err =>
      rw [start_err_eq]
      exact ⟨hr1, hs1⟩
  | ok lk =>
      rw [start_ok_eq]
      have hn1 := stopOrId_nextSid st uid' ct
      constructor
      · rw [setUser_registry, alloc_registry, if_neg hne, hr1]
      · intro sid hsid
        obtain ⟨s, hs, hsu⟩ := h.1 uid sid hsid
        have hlt : sid < st.nextSid := sid_lt_of_some st h sid s hs
        rw [setUser_sessions, alloc_sessions, if_neg (by omega), hs1 sid hsid]

theorem stopOrId_users (st : ServerState) (uid : String) (ct : Bool) :
    (if (st.registry uid).isSome then stopUserStream st uid ct else st).users = st.users := by
  by_cases hx : (st.registry uid).isSome
  · rw [if_pos hx]; exact stop_users st uid ct
  · rw [if_neg hx]

theorem setUser_users (st : ServerState) (uid : String) (f : UserDoc → UserDoc) :
    (setUser st uid f).users =
      aset uid (f ((alookup st.users uid).getD emptyDoc)) st.users := rfl

/-- C1: after any sequence of operations, the `streams` registry binds
every user id to at most one session — each registry slot holds a live
session of that very user, and at most one session object per user
ever has its renewal timer armed (and it is the registered one) — and
`startUserStream` on a user with a registered session first tears the
old one down: in the post-state the old session's timer is cleared and
the slot no longer points at it (stop-then-start replace, never a
duplicate). -/
theorem c1_registry_at_most_one_session (enckey : Option (List Nat)) (ops : List Op) :
    (∀ uid sid, (run enckey initState ops).registry uid = some sid →
      ∃ s, (run enckey initState ops).sessions sid = some s ∧ s.uid = uid) ∧
    (∀ sid₁ sid₂ s₁ s₂,
      (run enckey initState ops).sessions sid₁ = some s₁ →
      (run enckey initState ops).sessions sid₂ = some s₂ →
      s₁.uid = s₂.uid → s₁.timer = true → s₂.timer = true → sid₁ = sid₂) ∧
    (∀ uid sidOld k sec tok ct, (run enckey initState ops).registry uid = some sidOld →
      (∃ s', (startUserStream (run enckey initState ops) uid k sec tok ct).sessions sidOld =
        some s' ∧ s'.timer = false) ∧
      (startUserStream (run enckey initState ops) uid k sec tok ct).registry uid ≠
        some sidOld) := by
  have hg := goodState_run enckey ops initState goodState_init
  refine ⟨hg.1, ?_, ?_⟩
  · intro sid₁ sid₂ s₁ s₂ h1 h2 hu ht1 ht2
    exact armed_unique _ hg sid₁ sid₂ s₁ s₂ h1 h2 hu ht1 ht2
  · intro uid sidOld k sec tok ct hreg
    exact start_disarms_old _ uid k sec tok ct sidOld hg hreg

/-- C1 witness: one connect registers session 0 for user `u`; a second
connect leaves session 1 as the unique armed session and disarms and
unregisters session 0. -/
theorem c1_witness :
    (∃ s, (run none initState
        [.connect "u" "k" [1] [] (.ok "lk1") false]).sessions 0 = some s ∧ s.uid = "u") ∧
    (1 : Nat) = 1 ∧
    ((∃ s', (startUserStream (run none initState [.connect "u" "k" [1] [] (.ok "lk1") false])
        "u" "k" [1] (.ok "lk2") false).sessions 0 = some s' ∧ s'.timer = false) ∧
      (startUserStream (run none initState [.connect "u" "k" [1] [] (.ok "lk1") false])
        "u" "k" [1] (.ok "lk2") false).registry "u" ≠ some 0) := by
  refine ⟨?_, ?_, ?_⟩
  · exact (c1_registry_at_most_one_session none
      [.connect "u" "k" [1] [] (.ok "lk1") false]).1 "u" 0 (by decide)
  · exact (c1_registry_at_most_one_session none
      [.connect "u" "k" [1] [] (.ok "lk1") false,
       .connect "u" "k" [1] [] (.ok "lk2") false]).2.1
      1 1 { uid := "u", sock := .connecting, timer := true, listenKey := "lk2" }
      { uid := "u", sock := .connecting, timer := true, listenKey := "lk2" }
      (by decide) (by decide) rfl rfl rfl
  · exact (c1_registry_at_most_one_session none
      [.connect "u" "k" [1] [] (.ok "lk1") false]).2.2
      "u" 0 "k" [1] (.ok "lk2") false (by decide)

/-- C10: `stopUserStream` always removes the user's registry entry and
clears the renewal interval of the session registered there, for every
state, regardless of the socket state, and even when closing the
socket throws (`closeThrew = true`). -/
theorem c10_stop_clears_registry_and_timer (st : ServerState) (uid : String)
    (closeThrew : Bool) :
    (stopUserStream st uid closeThrew).registry uid = none ∧
    ∀ sid s, st.registry uid = some sid → st.sessions sid = some s →
      ∃ s', (stopUserStream st uid closeThrew).sessions sid = some s' ∧ s'.timer = false := by
  constructor
  · exact stop_registry_self st uid closeThrew
  · intro sid s hreg hs
    rw [stop_sessions st uid closeThrew sid sid hreg, if_pos rfl, hs]
    exact ⟨disarm closeThrew s, rfl, rfl⟩

/-- C10 witness: stopping user `u` with session 0 registered, with the
socket-close call throwing, still unregisters and disarms. -/
theorem c10_witness :
    (stopUserStream (run none initState [.connect "u" "k" [1] [] (.ok "lk1") false])
      "u" true).registry "u" = none ∧
    (∃ s', (stopUserStream (run none initState [.connect "u" "k" [1] [] (.ok "lk1") false])
      "u" true).sessions 0 = some s' ∧ s'.timer = false) :=
  ⟨(c10_stop_clears_registry_and_timer
      (run none initState [.connect "u" "k" [1] [] (.ok "lk1") false]) "u" true).1,
   (c10_stop_clears_registry_and_timer
      (run none initState [.connect "u" "k" [1] [] (.ok "lk1") false]) "u" true).2 0
      { uid := "u", sock := .connecting, timer := true, listenKey := "lk1" }
      (by decide) (by decide)⟩

/-- C4 (amended): on a user's registered session, `disconnect` answers
success after always cancelling the renewal timer — which can then
never fire again under any continuation — and removing the registry
entry; the socket, however, is closed only when it is already open
(and the close call does not throw): a session whose socket is still
connecting is left un-closed, which is why a disconnect followed
immediately by a connect can leave two concurrently open sockets (see
the counterexample). -/
theorem c4_amended_disconnect_cancels_timer (enckey : Option (List Nat)) (ops : List Op)
    (uid : String) (sid : Nat) (s : SessionRec) (ct : Bool) (hu : uid ≠ "")
    (hreg : (run enckey initState ops).registry uid = some sid)
    (hs : (run enckey initState ops).sessions sid = some s) :
    (disconnectBinance (run enckey initState ops) uid ct).2 = .okResp ∧
    (disconnectBinance (run enckey initState ops) uid ct).1.registry uid = none ∧
    (∃ s', (disconnectBinance (run enckey initState ops) uid ct).1.sessions sid = some s' ∧
      s'.timer = false ∧ (s.sock = .opened → ct = false → s'.sock = .closed)) ∧
    ∀ more, ¬ timerCanFire
      (run enckey (disconnectBinance (run enckey initState ops) uid ct).1 more) sid := by
  have hg := goodState_run enckey ops initState goodState_init
  rw [disconnect_eq _ uid ct hu]
  refine ⟨rfl, ?_, ?_, ?_⟩
  · rw [setUser_registry]
    exact stop_registry_self _ uid ct
  · rw [setUser_sessions, stop_sessions _ uid ct sid sid hreg, if_pos rfl, hs]
    refine ⟨disarm ct s, rfl, rfl, ?_⟩
    intro hsock hct
    simp [disarm, hsock, hct]
  · intro more hfire
    obtain ⟨t, htt, htimer⟩ := hfire
    have hgood' : goodState (setUser (stopUserStream (run enckey initState ops) uid ct) uid
        (fun d => { d with binanceConnected := false })) :=
      goodState_setUser _ _ _ (goodState_stop _ uid ct hg)
    have hdis : ∃ s', (setUser (stopUserStream (run enckey initState ops) uid ct) uid
        (fun d => { d with binanceConnected := false })).sessions sid = some s' ∧
        s'.timer = false := by
      rw [setUser_sessions, stop_sessions _ uid ct sid sid hreg, if_pos rfl, hs]
      exact ⟨disarm ct s, rfl, rfl⟩
    obtain ⟨s', hs', ht'⟩ := hdis
    obtain ⟨s'', hs'', ht''⟩ := run_keeps_disarmed enckey more _ sid s' hgood' hs' ht'
    rw [hs''] at htt
    injection htt with htt
    rw [htt] at ht''
    rw [ht''] at htimer
    cases htimer

/-- C4 counterexample to the claim as stated: connect, disconnect while
the socket is still connecting (`readyState !== OPEN`, so
`stopUserStream` does not close it), connect again; once both
handshakes complete the user `u` has two concurrently open sockets
(sessions 0 and 1). -/
theorem c4_counterexample :
    (run none initState
      [.connect "u" "k" [1] [] (.ok "lk1") false,
       .disconnect "u" false,
       .connect "u" "k" [1] [] (.ok "lk2") false,
       .sockOpen 0, .sockOpen 1]).sessions 0 =
        some { uid := "u", sock := .opened, timer := false, listenKey := "lk1" } ∧
    (run none initState
      [.connect "u" "k" [1] [] (.ok "lk1") false,
       .disconnect "u" false,
       .connect "u" "k" [1] [] (.ok "lk2") false,
       .sockOpen 0, .sockOpen 1]).sessions 1 =
        some { uid := "u", sock := .opened, timer := true, listenKey := "lk2" } := by decide

/-- C4 amended witness: disconnecting user `u` whose session 0 has an
open socket and an armed timer. -/
theorem c4_amended_witness :
    (disconnectBinance (run none initState
      [.connect "u" "k" [1] [] (.ok "lk1") false, .sockOpen 0]) "u" false).2 = .okResp ∧
    (disconnectBinance (run none initState
      [.connect "u" "k" [1] [] (.ok "lk1") false, .sockOpen 0]) "u" false).1.registry "u" =
      none ∧
    (∃ s', (disconnectBinance (run none initState
      [.connect "u" "k" [1] [] (.ok "lk1") false, .sockOpen 0]) "u" false).1.sessions 0 =
        some s' ∧ s'.timer = false ∧
        (SessionRec.sock { uid := "u", sock := .opened, timer := true, listenKey := "lk1" } =
            .opened → false = false → s'.sock = .closed)) ∧
    ∀ more, ¬ timerCanFire
      (run none (disconnectBinance (run none initState
        [.connect "u" "k" [1] [] (.ok "lk1") false, .sockOpen 0]) "u" false).1 more) 0 :=
  c4_amended_disconnect_cancels_timer none
    [.connect "u" "k" [1] [] (.ok "lk1") false, .sockOpen 0] "u" 0
    { uid := "u", sock := .opened, timer := true, listenKey := "lk1" } false
    (by decide) (by decide) (by decide)

/-- C3 (amended): when the venue rejects the credentials during token
issuance (`AuthError`), no session is created or registered for the
user — but the handler has already persisted `binanceConnected: true`
before attempting the stream, the failure is swallowed inside
`startUserStream`, and the request is still answered with success, so
the user is marked connected without a live session. -/
theorem c3_amended_auth_error_marks_connected (enckey : Option (List Nat)) (st : ServerState)
    (uid apiKey : String) (apiSecret iv : List Nat) (ct : Bool)
    (hu : uid ≠ "") (hk : apiKey ≠ "") (hsec : apiSecret ≠ []) :
    (connectBinance enckey st uid apiKey apiSecret iv .err ct).2 = .okResp ∧
    (connectBinance enckey st uid apiKey apiSecret iv .err ct).1.registry uid = none ∧
    (alookup (connectBinance enckey st uid apiKey apiSecret iv .err ct).1.users uid).map
      (fun d => d.binanceConnected) = some true := by
  have hval : ¬(uid = "" ∨ apiKey = "" ∨ apiSecret = []) := by
    intro hx
    rcases hx with hx | hx | hx
    exacts [hu hx, hk hx, hsec hx]
  rw [connect_eq enckey st uid apiKey apiSecret iv .err ct hval]
  refine ⟨rfl, ?_, ?_⟩
  · rw [start_err_eq]
    exact stopOrId_registry_none _ uid ct
  · rw [start_err_eq, stopOrId_users, setUser_users, alookup_aset_self]
    rfl

/-- C3 counterexample to the claim as stated: a fresh connect whose
token issuance fails with `AuthError` still reports success and leaves
`binanceConnected = true`, with no session registered. -/
theorem c3_counterexample :
    (connectBinance none initState "u" "k" [1] [] .err false).2 = .okResp ∧
    (connectBinance none initState "u" "k" [1] [] .err false).1.registry "u" = none ∧
    (alookup (connectBinance none initState "u" "k" [1] [] .err false).1.users "u").map
      (fun d => d.binanceConnected) = some true := by decide

/-- C3 amended witness. -/
theorem c3_amended_witness :
    (connectBinance none initState "w" "kk" [2] [] .err true).2 = .okResp ∧
    (connectBinance none initState "w" "kk" [2] [] .err true).1.registry "w" = none ∧
    (alookup (connectBinance none initState "w" "kk" [2] [] .err true).1.users "w").map
      (fun d => d.binanceConnected) = some true :=
  c3_amended_auth_error_marks_connected none initState "w" "kk" [2] [] true
    (by decide) (by decide) (by decide)

theorem recoverStep_keys (enckey : Option (List Nat)) (outcomes : String → TokenResult)
    (acc : ServerState × List BootReport) (uid : String) (doc : UserDoc) (apiKey : String)
    (blob : List Nat) (hk : doc.binanceApiKey = some apiKey)
    (hb : doc.binanceApiSecret = some blob) :
    recoverStep enckey outcomes acc (uid, doc) =
      (startUserStream acc.1 uid apiKey (decrypt enckey blob) (outcomes uid) false,
       acc.2 ++ [reportOf outcomes (uid, doc)]) := by
  unfold recoverStep
  dsimp only
  rw [hk, hb]

theorem recoverStep_missing (enckey : Option (List Nat)) (outcomes : String → TokenResult)
    (acc : ServerState × List BootReport) (uid : String) (doc : UserDoc)
    (h : doc.binanceApiKey = none ∨ doc.binanceApiSecret = none) :
    recoverStep enckey outcomes acc (uid, doc) =
      (acc.1, acc.2 ++ [reportOf outcomes (uid, doc)]) := by
  unfold recoverStep
  dsimp only
  cases hk : doc.binanceApiKey with
  | none => cases hb : doc.binanceApiSecret <;> rfl
  | some k =>
      cases hb : doc.binanceApiSecret with
      | none => rfl
      | some b =>
          rcases h with h | h
          · rw [hk] at h; cases h
          · rw [hb] at h; cases h

theorem recover_fold_good (enckey : Option (List Nat)) (outcomes : String → TokenResult)
    (entries : List (String × UserDoc)) :
    ∀ (st : ServerState) (reps : List BootReport), goodState st →
      goodState ((entries.foldl (recoverStep enckey outcomes) (st, reps)).1) := by
  induction entries with
  | nil => intro st reps h; exact h
  | cons e rest ih =>
      intro st reps h
      rw [List.foldl_cons]
      obtain ⟨uid, doc⟩ := e
      cases hk : doc.binanceApiKey with
      | none =>
          rw [recoverStep_missing enckey outcomes (st, reps) uid doc (Or.inl hk)]
          exact ih st _ h
      | some k =>
          cases hb : doc.binanceApiSecret with
          | none =>
              rw [recoverStep_missing enckey outcomes (st, reps) uid doc (Or.inr hb)]
              exact ih st _ h
          | some b =>
              rw [recoverStep_keys enckey outcomes (st, reps) uid doc k b hk hb]
              exact ih _ _ (goodState_start st uid k (decrypt enckey b) (outcomes uid) false h)

theorem recover_fold_reports (enckey : Option (List Nat)) (outcomes : String → TokenResult)
    (entries : List (String × UserDoc)) :
    ∀ (st : ServerState) (reps : List BootReport),
      (entries.foldl (recoverStep enckey outcomes) (st, reps)).2 =
        reps ++ entries.map (reportOf outcomes) := by
  induction entries with
  | nil => intro st reps; simp
  | cons e rest ih =>
      intro st reps
      rw [List.foldl_cons, List.map_cons]
      obtain ⟨uid, doc⟩ := e
      cases hk : doc.binanceApiKey with
      | none =>
          rw [recoverStep_missing enckey outcomes (st, reps) uid doc (Or.inl hk), ih]
          simp
      | some k =>
          cases hb : doc.binanceApiSecret with
          | none =>
              rw [recoverStep_missing enckey outcomes (st, reps) uid doc (Or.inr hb), ih]
              simp
          | some b =>
              rw [recoverStep_keys enckey outcomes (st, reps) uid doc k b hk hb, ih]
              simp

theorem recover_fold_preserves (enckey : Option (List Nat)) (outcomes : String → TokenResult)
    (entries : List (String × UserDoc)) :
    ∀ (st : ServerState) (reps : List BootReport) (uid : String) (sid : Nat),
      goodState st → uid ∉ entries.map Prod.fst → st.registry uid = some sid →
      ((entries.foldl (recoverStep enckey outcomes) (st, reps)).1).registry uid = some sid ∧
      ((entries.foldl (recoverStep enckey outcomes) (st, reps)).1).sessions sid =
        st.sessions sid := by
  induction entries with
  | nil => intro st reps uid sid _ _ hr; exact ⟨hr, rfl⟩
  | cons e rest ih =>
      intro st reps uid sid h hnm hr
      obtain ⟨uid', doc⟩ := e
      rw [List.map_cons] at hnm
      have hne : uid ≠ uid' := fun he => hnm (by rw [he]; exact List.mem_cons_self _ _)
      have hnm' : uid ∉ rest.map Prod.fst := fun hm => hnm (List.mem_cons_of_mem _ hm)
      rw [List.foldl_cons]
      cases hk : doc.binanceApiKey with
      | none =>
          rw [recoverStep_missing enckey outcomes (st, reps) uid' doc (Or.inl hk)]
          exact ih st _ uid sid h hnm' hr
      | some k =>
          cases hb : doc.binanceApiSecret with
          | none =>
              rw [recoverStep_missing enckey outcomes (st, reps) uid' doc (Or.inr hb)]
              exact ih st _ uid sid h hnm' hr
          | some b =>
              rw [recoverStep_keys enckey outcomes (st, reps) uid' doc k b hk hb]
              obtain ⟨hr1, hs1⟩ := start_preserves_other st uid uid' k (decrypt enckey b)
                (outcomes uid') false h hne
              have hgood1 := goodState_start st uid' k (decrypt enckey b) (outcomes uid') false h
              obtain ⟨hr2, hs2⟩ := ih (startUserStream st uid' k (decrypt enckey b)
                (outcomes uid') false) _ uid sid hgood1 hnm' (by rw [hr1]; exact hr)
              exact ⟨hr2, by rw [hs2, hs1 sid hr]⟩

/-- C8: boot recovery is failure-isolated.  For every persisted state
and every assignment of per-user venue outcomes: each connected user
whose document has both keys and whose stream start succeeds ends with
a registered, armed session — no matter how many other users have
corrupt credentials (which `decrypt` silently passes through, so they
surface as venue rejections), missing keys, or venue rejections — and
`recoverAll` returns one report per connected user (warnings and
stream failures are reported, never thrown out of the loop). -/
theorem c8_boot_recovery_isolated (enckey : Option (List Nat))
    (outcomes : String → TokenResult) (st : ServerState) (uid apiKey lk : String)
    (blob : List Nat) (doc : UserDoc) (hg : goodState st)
    (hnd : (st.users.map Prod.fst).Nodup) (hmem : (uid, doc) ∈ st.users)
    (hconn : doc.binanceConnected = true) (hkey : doc.binanceApiKey = some apiKey)
    (hsec : doc.binanceApiSecret = some blob) (hok : outcomes uid = .ok lk) :
    (∃ sid, (recoverAll enckey st outcomes).1.registry uid = some sid ∧
      (recoverAll enckey st outcomes).1.sessions sid =
        some { uid := uid, sock := .connecting, timer := true, listenKey := lk }) ∧
    (recoverAll enckey st outcomes).2 =
      (st.users.filter (fun entry => entry.2.binanceConnected)).map (reportOf outcomes) := by
  unfold recoverAll
  refine ⟨?_, by rw [recover_fold_reports]; simp⟩
  have hmemF : (uid, doc) ∈ st.users.filter (fun entry => entry.2.binanceConnected) :=
    List.mem_filter.mpr ⟨hmem, hconn⟩
  obtain ⟨F1, F2, hsplit⟩ := List.append_of_mem hmemF
  have hndF : ((st.users.filter (fun entry => entry.2.binanceConnected)).map Prod.fst).Nodup :=
    hnd.sublist ((List.filter_sublist _).map _)
  rw [hsplit] at hndF
  have hnotF2 : uid ∉ F2.map Prod.fst := by
    rw [List.map_append, List.map_cons] at hndF
    have hsub : List.Sublist ((uid, doc).1 :: F2.map Prod.fst)
        (F1.map Prod.fst ++ (uid, doc).1 :: F2.map Prod.fst) :=
      List.sublist_append_right _ _
    have hnd2 := hndF.sublist hsub
    rw [List.nodup_cons] at hnd2
    exact hnd2.1
  rw [hsplit, List.foldl_append, List.foldl_cons]
  rw [recoverStep_keys enckey outcomes
    (F1.foldl (recoverStep enckey outcomes) (st, [])) uid doc apiKey blob hkey hsec, hok]
  have hgood1 := recover_fold_good enckey outcomes F1 st [] hg
  obtain ⟨sid, hr, hsv⟩ := start_ok_shape (F1.foldl (recoverStep enckey outcomes) (st, [])).1
    uid apiKey (decrypt enckey blob) lk false
  have hgood2 := goodState_start (F1.foldl (recoverStep enckey outcomes) (st, [])).1
    uid apiKey (decrypt enckey blob) (.ok lk) false hgood1
  obtain ⟨hr2, hs2⟩ := recover_fold_preserves enckey outcomes F2
    (startUserStream (F1.foldl (recoverStep enckey outcomes) (st, [])).1 uid apiKey
      (decrypt enckey blob) (.ok lk) false)
    ((F1.foldl (recoverStep enckey outcomes) (st, [])).2 ++ [reportOf outcomes (uid, doc)])
    uid sid hgood2 hnotF2 hr
  exact ⟨sid, hr2, by rw [hs2]; exact hsv⟩

/-- C8 witness: three persisted connected users; the venue rejects the
(corrupt) credentials of `u2`, yet `u1` gets a live session and the
failure for `u2` appears in the report list rather than being
thrown. -/
theorem c8_witness :
    (∃ sid, (recoverAll none
        { sessions := fun _ => none, nextSid := 0, registry := fun _ => none,
          users := [("u1", { binanceApiKey := some "k1", binanceApiSecret := some [9],
                             binanceConnected := true, lastListenKey := none }),
                    ("u2", { binanceApiKey := some "k2", binanceApiSecret := some [8],
                             binanceConnected := true, lastListenKey := none }),
                    ("u3", { binanceApiKey := some "k3", binanceApiSecret := some [7],
                             binanceConnected := true, lastListenKey := none })] }
        (fun u => if u = "u2" then .err else .ok "lk")).1.registry "u1" = some sid ∧
      (recoverAll none
        { sessions := fun _ => none, nextSid := 0, registry := fun _ => none,
          users := [("u1", { binanceApiKey := some "k1", binanceApiSecret := some [9],
                             binanceConnected := true, lastListenKey := none }),
                    ("u2", { binanceApiKey := some "k2", binanceApiSecret := some [8],
                             binanceConnected := true, lastListenKey := none }),
                    ("u3", { binanceApiKey := some "k3", binanceApiSecret := some [7],
                             binanceConnected := true, lastListenKey := none })] }
        (fun u => if u = "u2" then .err else .ok "lk")).1.sessions sid =
        some { uid := "u1", sock := .connecting, timer := true, listenKey := "lk" }) ∧
    (recoverAll none
        { sessions := fun _ => none, nextSid := 0, registry := fun _ => none,
          users := [("u1", { binanceApiKey := some "k1", binanceApiSecret := some [9],
                             binanceConnected := true, lastListenKey := none }),
                    ("u2", { binanceApiKey := some "k2", binanceApiSecret := some [8],
                             binanceConnected := true, lastListenKey := none }),
                    ("u3", { binanceApiKey := some "k3", binanceApiSecret := some [7],
                             binanceConnected := true, lastListenKey := none })] }
        (fun u => if u = "u2" then .err else .ok "lk")).2 =
      (([("u1", ({ binanceApiKey := some "k1", binanceApiSecret := some [9],
                   binanceConnected := true, lastListenKey := none } : UserDoc)),
         ("u2", { binanceApiKey := some "k2", binanceApiSecret := some [8],
                  binanceConnected := true, lastListenKey := none }),
         ("u3", { binanceApiKey := some "k3", binanceApiSecret := some [7],
                  binanceConnected := true, lastListenKey := none })].filter
          (fun entry => entry.2.binanceConnected)).map
        (reportOf (fun u => if u = "u2" then .err else .ok "lk"))) :=
  c8_boot_recovery_isolated none (fun u => if u = "u2" then .err else .ok "lk")
    { sessions := fun _ => none, nextSid := 0, registry := fun _ => none,
      users := [("u1", { binanceApiKey := some "k1", binanceApiSecret := some [9],
                         binanceConnected := true, lastListenKey := none }),
                ("u2", { binanceApiKey := some "k2", binanceApiSecret := some [8],
                         binanceConnected := true, lastListenKey := none }),
                ("u3", { binanceApiKey := some "k3", binanceApiSecret := some [7],
                         binanceConnected := true, lastListenKey := none })] }
    "u1" "k1" "lk" [9]
    { binanceApiKey := some "k1", binanceApiSecret := some [9],
      binanceConnected := true, lastListenKey := none }
    goodState_init
    (by decide) (by decide) rfl rfl rfl (by decide)
